import Mathlib

/-!
Shallow embedding of the pets CRUD application
(`src/topic-05-orm-peewee/database.py` and `src/topic-05-orm-peewee/app.py`).

The data-access layer stores three tables (Kind, Owner, Pet) in a SQLite
database with `PRAGMA foreign_keys = 1` and `on_delete="RESTRICT"`,
`on_update="CASCADE"` foreign keys from Pet to Kind and Owner.  We embed a
database state as three lists of rows plus the auto-increment counters, and
each data-access function as a Lean function on that state.  Fallible
operations (those that can raise a Python exception that reaches the caller)
return `Except String DB`; a failed SQL statement leaves the state unchanged,
which the `applyOp` runner makes explicit.  Form data (`dict(request.form)`)
is embedded as an association list from strings to values, so that missing
keys (Python `KeyError`) and the in-place mutation of `data["age"]` are
representable.
-/

namespace Pets

/-- A Python value stored in a form dict or a table cell: either a string
(as all HTML form fields are) or an integer. -/
inductive Value where
  | vStr (s : String)
  | vInt (n : Int)
deriving DecidableEq, Repr

/-- A Python dict of form data: association list, no duplicate keys assumed
only through `getVal` always taking the first binding. -/
def Dict : Type := List (String × Value)

instance : DecidableEq Dict := by unfold Dict; infer_instance

/-- `data[k]` as a total lookup: `none` models a `KeyError`. -/
def getVal (d : Dict) (k : String) : Option Value :=
  (List.find? (fun p => p.1 == k) d).map (fun p => p.2)

/-- `data[k] = v`: replace the binding for `k` (or add it). -/
def setKey (d : Dict) (k : String) (v : Value) : Dict :=
  (List.filter (fun p => p.1 != k) d) ++ [(k, v)]

/-- Value of a decimal digit character, `none` for anything else. -/
def digitVal (c : Char) : Option Nat :=
  if 48 ≤ c.toNat ∧ c.toNat ≤ 57 then some (c.toNat - 48) else none

/-- Accumulate decimal digits left to right; fail at the first non-digit. -/
def digitsToNatAux : List Char → Nat → Option Nat
  | [], acc => some acc
  | c :: cs, acc =>
    match digitVal c with
    | some d => digitsToNatAux cs (acc * 10 + d)
    | none => none

/-- A non-empty all-digit character list as a number. -/
def digitsToNat (l : List Char) : Option Nat :=
  match l with
  | [] => none
  | _ => digitsToNatAux l 0

/-- Python `int(s)` on a string: an optional sign followed by decimal
digits; `none` models the `ValueError` on unparseable input. -/
def pyInt (s : String) : Option Int :=
  match s.data with
  | '-' :: rest => (digitsToNat rest).map (fun n => -(n : Int))
  | '+' :: rest => (digitsToNat rest).map (fun n => (n : Int))
  | l => (digitsToNat l).map (fun n => (n : Int))

/-- Python `int(x)` when it succeeds: an int is itself, a string parses via
the decimal grammar; `none` models the exception on unparseable input. -/
def toInt : Value → Option Int
  | .vInt n => some n
  | .vStr s => pyInt s

/-- A SQLite row id as referenced through column affinity: an integer value
(or a numeric string, converted) that is non-negative; anything else can
never match an `AutoField` id. -/
def asId (v : Value) : Option Nat :=
  match toInt v with
  | some n => if n < 0 then none else some n.toNat
  | none => none

/-- A row of the Kind table: `id = AutoField()`, `name`, `food`, `sound`. -/
structure KindRow where
  id : Nat
  name : Value
  food : Value
  sound : Value
deriving DecidableEq, Repr

/-- A row of the Owner table: `id = AutoField()`, `name`, `address`. -/
structure OwnerRow where
  id : Nat
  name : Value
  address : Value
deriving DecidableEq, Repr

/-- A row of the Pet table: `id = AutoField()`, `name`, `age`,
`kind = ForeignKeyField(Kind)`, `owner = ForeignKeyField(Owner)`.
The stored foreign keys are the referenced ids. -/
structure PetRow where
  id : Nat
  name : Value
  age : Int
  kind_id : Nat
  owner_id : Nat
deriving DecidableEq, Repr

/-- A database state: the three tables plus each table's next
auto-increment id. -/
structure DB where
  kinds : List KindRow
  owners : List OwnerRow
  pets : List PetRow
  nextKind : Nat
  nextOwner : Nat
  nextPet : Nat
deriving DecidableEq, Repr

/-- The state right after `initialize` created empty tables. -/
def emptyDB : DB :=
  { kinds := [], owners := [], pets := [],
    nextKind := 1, nextOwner := 1, nextPet := 1 }

/-- The coerced age: `int(data["age"])`, with `0` on any exception
(unparseable value or missing key). -/
def coerceAge (d : Dict) : Int :=
  match getVal d "age" with
  | some v => (toInt v).getD 0
  | none => 0

/-- `database.create_kind`: `Kind.create(name=data["name"], food=data["food"],
sound=data["sound"])`.  A missing key raises `KeyError`. -/
def create_kind (data : Dict) (db : DB) : Except String DB :=
  match getVal data "name", getVal data "food", getVal data "sound" with
  | some nm, some f, some s =>
      .ok { db with
              kinds := db.kinds ++ [⟨db.nextKind, nm, f, s⟩],
              nextKind := db.nextKind + 1 }
  | _, _, _ => .error "KeyError"

/-- `database.create_owner`: `Owner.create(name=data["name"],
address=data["address"])`. -/
def create_owner (data : Dict) (db : DB) : Except String DB :=
  match getVal data "name", getVal data "address" with
  | some nm, some a =>
      .ok { db with
              owners := db.owners ++ [⟨db.nextOwner, nm, a⟩],
              nextOwner := db.nextOwner + 1 }
  | _, _ => .error "KeyError"

/-- `database.create_pet`: first `data["age"] = int(data["age"])` with `0`
on failure (this mutates the caller's dict, returned as the first
component), then `Pet.create(...)`, whose INSERT fails with an
IntegrityError when the kind or owner foreign key does not resolve to an
existing row under `PRAGMA foreign_keys = 1`. -/
def create_pet (data : Dict) (db : DB) : Dict × Except String DB :=
  let a := coerceAge data
  let d := setKey data "age" (.vInt a)
  match getVal d "name", getVal d "kind_id", getVal d "owner_id" with
  | some nm, some kv, some ov =>
      match asId kv, asId ov with
      | some kid, some oid =>
          if (db.kinds.any (fun k => k.id == kid)) &&
             (db.owners.any (fun o => o.id == oid)) then
            (d, .ok { db with
                        pets := db.pets ++ [⟨db.nextPet, nm, a, kid, oid⟩],
                        nextPet := db.nextPet + 1 })
          else
            (d, .error "FOREIGN KEY constraint failed")
      | _, _ => (d, .error "FOREIGN KEY constraint failed")
  | _, _, _ => (d, .error "KeyError")

/-- `database.update_pet`: coerce `data["age"]` in place, then
`Pet.update(...).where(Pet.id == id).execute()`.  The UPDATE is a no-op when
no row matches; when a row is rewritten the foreign-key constraints are
checked on the new values and a violation fails the whole statement. -/
def update_pet (id : Nat) (data : Dict) (db : DB) : Dict × Except String DB :=
  let a := coerceAge data
  let d := setKey data "age" (.vInt a)
  match getVal d "name", getVal d "kind_id", getVal d "owner_id" with
  | some nm, some kv, some ov =>
      if db.pets.any (fun p => p.id == id) then
        match asId kv, asId ov with
        | some kid, some oid =>
            if (db.kinds.any (fun k => k.id == kid)) &&
               (db.owners.any (fun o => o.id == oid)) then
              (d, .ok { db with
                          pets := db.pets.map (fun p =>
                            if p.id == id then ⟨p.id, nm, a, kid, oid⟩ else p) })
            else
              (d, .error "FOREIGN KEY constraint failed")
        | _, _ => (d, .error "FOREIGN KEY constraint failed")
      else
        (d, .ok db)
  | _, _, _ => (d, .error "KeyError")

/-- `database.update_kind`: rewrite name/food/sound of the matching row;
no-op when no row matches; the id column is untouched. -/
def update_kind (id : Nat) (data : Dict) (db : DB) : Except String DB :=
  match getVal data "name", getVal data "food", getVal data "sound" with
  | some nm, some f, some s =>
      .ok { db with
              kinds := db.kinds.map (fun k =>
                if k.id == id then ⟨k.id, nm, f, s⟩ else k) }
  | _, _, _ => .error "KeyError"

/-- `database.update_owner`: rewrite name/address of the matching row;
no-op when no row matches. -/
def update_owner (id : Nat) (data : Dict) (db : DB) : Except String DB :=
  match getVal data "name", getVal data "address" with
  | some nm, some a =>
      .ok { db with
              owners := db.owners.map (fun o =>
                if o.id == id then ⟨o.id, nm, a⟩ else o) }
  | _, _ => .error "KeyError"

/-- `database.delete_pet`: `Pet.delete().where(Pet.id == id).execute()`.
Nothing references the Pet table, so the DELETE never fails. -/
def delete_pet (id : Nat) (db : DB) : DB :=
  { db with pets := db.pets.filter (fun p => p.id != id) }

/-- `database.delete_kind`: the DELETE fails with an IntegrityError when a
row is actually removed (the id exists) and some Pet still references it
(`on_delete="RESTRICT"`); otherwise the matching row (if any) is removed. -/
def delete_kind (id : Nat) (db : DB) : Except String DB :=
  if (db.kinds.any (fun k => k.id == id)) &&
     (db.pets.any (fun p => p.kind_id == id)) then
    .error "FOREIGN KEY constraint failed"
  else
    .ok { db with kinds := db.kinds.filter (fun k => k.id != id) }

/-- `database.delete_owner`: as `delete_kind`, for the Owner table. -/
def delete_owner (id : Nat) (db : DB) : Except String DB :=
  if (db.owners.any (fun o => o.id == id)) &&
     (db.pets.any (fun p => p.owner_id == id)) then
    .error "FOREIGN KEY constraint failed"
  else
    .ok { db with owners := db.owners.filter (fun o => o.id != id) }

/-- Result of a get-one data-access call, which in Python returns either a
dict of the row's fields or a sentinel string. -/
inductive GetResult where
  | record (d : Dict)
  | sentinel (s : String)
deriving DecidableEq

/-- The dict `get_pet` builds from a found row. -/
def petDict (p : PetRow) : Dict :=
  [("id", .vInt p.id), ("name", p.name), ("kind_id", .vInt p.kind_id),
   ("age", .vInt p.age), ("owner_id", .vInt p.owner_id)]

/-- `database.get_pet`: `Pet.get_or_none(Pet.id == id)`, then either the
field dict or the string sentinel. -/
def get_pet (id : Nat) (db : DB) : GetResult :=
  match db.pets.find? (fun p => p.id == id) with
  | some p => .record (petDict p)
  | none => .sentinel "Data not found."

/-- The dict `get_kind` builds from a found row. -/
def kindDict (k : KindRow) : Dict :=
  [("id", .vInt k.id), ("name", k.name), ("food", k.food), ("sound", k.sound)]

/-- `database.get_kind`. -/
def get_kind (id : Nat) (db : DB) : GetResult :=
  match db.kinds.find? (fun k => k.id == id) with
  | some k => .record (kindDict k)
  | none => .sentinel "Data not found."

/-- The dict `get_owner` builds from a found row. -/
def ownerDict (o : OwnerRow) : Dict :=
  [("id", .vInt o.id), ("name", o.name), ("address", o.address)]

/-- `database.get_owner`: note the sentinel lacks the trailing period. -/
def get_owner (id : Nat) (db : DB) : GetResult :=
  match db.owners.find? (fun o => o.id == id) with
  | some o => .record (ownerDict o)
  | none => .sentinel "Data not found"

/-- One row of the `get_pets` join output: Pet id/name/age with the Kind's
name (aliased `kind_name`), food and sound and the Owner's name
(aliased `owner`). -/
def petJoinRow (p : PetRow) (k : KindRow) (o : OwnerRow) : Dict :=
  [("id", .vInt p.id), ("name", p.name), ("age", .vInt p.age),
   ("kind_name", k.name), ("food", k.food), ("sound", k.sound),
   ("owner", o.name)]

/-- `database.get_pets`: the two-way INNER JOIN
`Pet.select(...).join(Kind).switch(Pet).join(Owner)`, one output row per
(pet, matching kind, matching owner) triple. -/
def get_pets (db : DB) : List Dict :=
  db.pets.flatMap (fun p =>
    (db.kinds.filter (fun k => k.id == p.kind_id)).flatMap (fun k =>
      (db.owners.filter (fun o => o.id == p.owner_id)).map (fun o =>
        petJoinRow p k o)))

/-- What a Flask route handler hands back to the framework. -/
inductive Response where
  | redirect (target : String)
  | errorPage (text : String)
deriving DecidableEq

/-- Outcome of running a route handler on a database state: either a
response together with the resulting state, or an exception that escaped
the handler (Flask would turn it into a 500, not a redirect). -/
inductive HandlerResult where
  | response (r : Response) (db : DB)
  | raised (e : String) (db : DB)
deriving DecidableEq

/-- Whether a handler outcome is a redirect response. -/
def HandlerResult.isRedirect : HandlerResult → Bool
  | .response (.redirect _) _ => true
  | _ => false

/-- `app.post_create`: `database.create_pet(data)` then
`redirect(url_for("get_list"))`; no try/except, so a data-access error
escapes. -/
def post_create (data : Dict) (db : DB) : HandlerResult :=
  match create_pet data db with
  | (_, .ok db2) => .response (.redirect "get_list") db2
  | (_, .error e) => .raised e db

/-- `app.post_update`: `database.update_pet(id, data)` then redirect to the
pet list. -/
def post_update (id : Nat) (data : Dict) (db : DB) : HandlerResult :=
  match update_pet id data db with
  | (_, .ok db2) => .response (.redirect "get_list") db2
  | (_, .error e) => .raised e db

/-- `app.post_kind_create`: `database.create_kind(data)` then redirect to
the kind list. -/
def post_kind_create (data : Dict) (db : DB) : HandlerResult :=
  match create_kind data db with
  | .ok db2 => .response (.redirect "get_kind_list") db2
  | .error e => .raised e db

/-- `app.post_kind_update`: `database.update_kind(id, data)` then redirect
to the kind list. -/
def post_kind_update (id : Nat) (data : Dict) (db : DB) : HandlerResult :=
  match update_kind id data db with
  | .ok db2 => .response (.redirect "get_kind_list") db2
  | .error e => .raised e db

/-- `app.post_owner_create`: `database.create_owner(data)` then redirect to
the owner list. -/
def post_owner_create (data : Dict) (db : DB) : HandlerResult :=
  match create_owner data db with
  | .ok db2 => .response (.redirect "get_owner_list") db2
  | .error e => .raised e db

/-- `app.post_owner_update`: `database.update_owner(id, data)` then
redirect to the owner list. -/
def post_owner_update (id : Nat) (data : Dict) (db : DB) : HandlerResult :=
  match update_owner id data db with
  | .ok db2 => .response (.redirect "get_owner_list") db2
  | .error e => .raised e db

/-- `app.get_delete` (pet delete route): `database.delete_pet(id)` then
redirect; there is no try/except here, but `delete_pet` raises nothing. -/
def get_delete (id : Nat) (db : DB) : HandlerResult :=
  .response (.redirect "get_list") (delete_pet id db)

/-- `app.get_kind_delete`: `database.delete_kind(id)` inside try/except;
on an exception renders `error.html` with the error text. -/
def get_kind_delete (id : Nat) (db : DB) : HandlerResult :=
  match delete_kind id db with
  | .ok db2 => .response (.redirect "get_kind_list") db2
  | .error e => .response (.errorPage e) db

/-- `app.get_owner_delete`: `database.delete_owner(id)` inside try/except;
on an exception renders `error.html` with the error text. -/
def get_owner_delete (id : Nat) (db : DB) : HandlerResult :=
  match delete_owner id db with
  | .ok db2 => .response (.redirect "get_owner_list") db2
  | .error e => .response (.errorPage e) db

/-- One invocation of a data-access write operation, with its arguments. -/
inductive Op where
  | opCreatePet (data : Dict)
  | opCreateKind (data : Dict)
  | opCreateOwner (data : Dict)
  | opUpdatePet (id : Nat) (data : Dict)
  | opUpdateKind (id : Nat) (data : Dict)
  | opUpdateOwner (id : Nat) (data : Dict)
  | opDeletePet (id : Nat)
  | opDeleteKind (id : Nat)
  | opDeleteOwner (id : Nat)

/-- The database state after running one operation: a failed SQL statement
is atomic, so an error leaves the state as it was. -/
def applyOp (op : Op) (db : DB) : DB :=
  match op with
  | .opCreatePet d =>
      match (create_pet d db).2 with | .ok db2 => db2 | .error _ => db
  | .opCreateKind d =>
      match create_kind d db with | .ok db2 => db2 | .error _ => db
  | .opCreateOwner d =>
      match create_owner d db with | .ok db2 => db2 | .error _ => db
  | .opUpdatePet id d =>
      match (update_pet id d db).2 with | .ok db2 => db2 | .error _ => db
  | .opUpdateKind id d =>
      match update_kind id d db with | .ok db2 => db2 | .error _ => db
  | .opUpdateOwner id d =>
      match update_owner id d db with | .ok db2 => db2 | .error _ => db
  | .opDeletePet id => delete_pet id db
  | .opDeleteKind id =>
      match delete_kind id db with | .ok db2 => db2 | .error _ => db
  | .opDeleteOwner id =>
      match delete_owner id db with | .ok db2 => db2 | .error _ => db

/-- Run a sequence of operations from a starting state. -/
def runOps (ops : List Op) (db : DB) : DB :=
  ops.foldl (fun s op => applyOp op s) db

/-- A state is reachable when some sequence of data-access operations
produces it from the empty database. -/
def Reachable (db : DB) : Prop :=
  ∃ ops : List Op, runOps ops emptyDB = db

/-- Referential integrity: every Pet row's kind_id and owner_id are the id
of an existing Kind row and Owner row. -/
def RefIntegrity (db : DB) : Prop :=
  ∀ p ∈ db.pets,
    (∃ k ∈ db.kinds, k.id = p.kind_id) ∧ (∃ o ∈ db.owners, o.id = p.owner_id)

/-- Primary-key uniqueness, which SQLite enforces on the three id columns. -/
def UniqueIds (db : DB) : Prop :=
  db.kinds.Pairwise (fun a b => a.id ≠ b.id) ∧
  db.owners.Pairwise (fun a b => a.id ≠ b.id) ∧
  db.pets.Pairwise (fun a b => a.id ≠ b.id)

/-- A small populated state used to instantiate the theorems: one kind, one
owner, one pet referencing both. -/
def sampleDB : DB :=
  { kinds := [⟨1, .vStr "dog", .vStr "dogfood", .vStr "bark"⟩],
    owners := [⟨1, .vStr "Greg", .vStr "1365 Maple Ave."⟩],
    pets := [⟨1, .vStr "dorothy", 9, 1, 1⟩],
    nextKind := 2, nextOwner := 2, nextPet := 2 }

/-- A well-formed pet form submission (all expected keys present). -/
def samplePetData : Dict :=
  [("name", .vStr "suzy"), ("age", .vStr "9"),
   ("kind_id", .vStr "1"), ("owner_id", .vStr "1")]

/-- A form submission carrying every key any update handler reads. -/
def sampleAllData : Dict :=
  [("name", .vStr "x"), ("age", .vStr "3"), ("kind_id", .vStr "1"),
   ("owner_id", .vStr "1"), ("food", .vStr "y"), ("sound", .vStr "z"),
   ("address", .vStr "w")]

/-- A pet form submission whose age field is not a number. -/
def sampleBadAgeData : Dict :=
  [("name", .vStr "rex"), ("age", .vStr "abc"),
   ("kind_id", .vStr "1"), ("owner_id", .vStr "1")]

/-! ## Helper lemmas -/

theorem find?_filter_out_key (d : Dict) (k : String) :
    (List.filter (fun p => p.1 != k) d).find? (fun p => p.1 == k) = none := by
  apply List.find?_eq_none.mpr
  intro x hx
  have hk := (List.mem_filter.mp hx).2
  simpa using hk

theorem getVal_setKey_same (d : Dict) (k : String) (v : Value) :
    getVal (setKey d k v) k = some v := by
  unfold getVal setKey
  rw [List.find?_append, find?_filter_out_key]
  simp [List.find?]

theorem getVal_setKey_other (d : Dict) (k k2 : String) (v : Value) (h : k2 ≠ k) :
    getVal (setKey d k v) k2 = getVal d k2 := by
  unfold getVal setKey
  rw [List.find?_append]
  have hone : [(k, v)].find? (fun p => p.1 == k2) = none := by
    have hb : (k == k2) = false := by
      simp only [beq_eq_false_iff_ne, ne_eq]
      intro he
      exact h he.symm
    simp [List.find?, hb]
  rw [hone]
  have hfil : (List.filter (fun p => p.1 != k) d).find? (fun p => p.1 == k2) =
      d.find? (fun p => p.1 == k2) := by
    induction d with
    | nil => simp
    | cons hd tl ih =>
        by_cases hh : hd.1 = k
        · have hb : (hd.1 != k) = false := by simpa using hh
          have hb2 : (hd.1 == k2) = false := by
            simp only [beq_eq_false_iff_ne, ne_eq]
            intro he
            exact h (hh ▸ he).symm
          simp only [List.filter_cons, hb, Bool.false_eq_true, if_neg, not_false_iff]
          simp only [List.find?, hb2]
          exact ih
        · have hb : (hd.1 != k) = true := by simpa using hh
          simp only [List.filter_cons, hb, if_pos]
          simp only [List.find?]
          cases hc : (hd.1 == k2) with
          | true => rfl
          | false => exact ih
  rw [hfil]
  cases hc : d.find? (fun p => p.1 == k2) <;> simp

theorem find?_eq_none_of_all_ne {α : Type} (l : List α) (f : α → Nat) (n : Nat)
    (h : ∀ x ∈ l, f x ≠ n) : l.find? (fun x => f x == n) = none := by
  apply List.find?_eq_none.mpr
  intro x hx
  simpa using h x hx

theorem any_eq_true_of_mem {α : Type} (l : List α) (f : α → Nat) (n : Nat)
    (x : α) (hx : x ∈ l) (hfx : f x = n) : l.any (fun y => f y == n) = true := by
  apply List.any_eq_true.mpr
  exact ⟨x, hx, by simpa using hfx⟩

theorem any_eq_false_of_all_ne {α : Type} (l : List α) (f : α → Nat) (n : Nat)
    (h : ∀ x ∈ l, f x ≠ n) : l.any (fun y => f y == n) = false := by
  simp only [List.any_eq_false]
  intro x hx
  simpa using h x hx

/-! ## Claim theorems -/

/-- C9: on a miss, `get_pet` and `get_kind` return the exact string
"Data not found." while `get_owner` returns "Data not found" without the
trailing period, so the three get-one operations do not share one
sentinel value. -/
theorem sentinel_strings (db : DB) (id : Nat) :
    ((∀ p ∈ db.pets, p.id ≠ id) →
        get_pet id db = .sentinel "Data not found.") ∧
    ((∀ k ∈ db.kinds, k.id ≠ id) →
        get_kind id db = .sentinel "Data not found.") ∧
    ((∀ o ∈ db.owners, o.id ≠ id) →
        get_owner id db = .sentinel "Data not found") ∧
    ((∀ p ∈ db.pets, p.id ≠ id) → (∀ o ∈ db.owners, o.id ≠ id) →
        get_pet id db ≠ get_owner id db) := by
  have hp : (∀ p ∈ db.pets, p.id ≠ id) →
      get_pet id db = .sentinel "Data not found." := by
    intro h
    unfold get_pet
    rw [find?_eq_none_of_all_ne db.pets (fun p => p.id) id h]
  have hk : (∀ k ∈ db.kinds, k.id ≠ id) →
      get_kind id db = .sentinel "Data not found." := by
    intro h
    unfold get_kind
    rw [find?_eq_none_of_all_ne db.kinds (fun k => k.id) id h]
  have ho : (∀ o ∈ db.owners, o.id ≠ id) →
      get_owner id db = .sentinel "Data not found" := by
    intro h
    unfold get_owner
    rw [find?_eq_none_of_all_ne db.owners (fun o => o.id) id h]
  refine ⟨hp, hk, ho, ?_⟩
  intro h1 h2
  rw [hp h1, ho h2]
  simp

/-- C9 witness: concrete sentinel values on the sample database. -/
theorem sentinel_strings_witness :
    get_pet 5 sampleDB = .sentinel "Data not found." ∧
    get_owner 5 sampleDB = .sentinel "Data not found" := by
  refine ⟨(sentinel_strings sampleDB 5).1 ?_, (sentinel_strings sampleDB 5).2.2.1 ?_⟩ <;>
    (intro x hx; fin_cases hx; decide)

/-- C5: each get-one operation returns the stored row's field dict when a
row with the requested id exists, and a sentinel string (never an
absent/null value) when none does. -/
theorem get_one_hit_and_miss (db : DB) (id : Nat) :
    ((∃ p ∈ db.pets, p.id = id) →
        ∃ p, p ∈ db.pets ∧ p.id = id ∧ get_pet id db = .record (petDict p)) ∧
    ((∀ p ∈ db.pets, p.id ≠ id) → ∃ s, get_pet id db = .sentinel s) ∧
    ((∃ k ∈ db.kinds, k.id = id) →
        ∃ k, k ∈ db.kinds ∧ k.id = id ∧ get_kind id db = .record (kindDict k)) ∧
    ((∀ k ∈ db.kinds, k.id ≠ id) → ∃ s, get_kind id db = .sentinel s) ∧
    ((∃ o ∈ db.owners, o.id = id) →
        ∃ o, o ∈ db.owners ∧ o.id = id ∧ get_owner id db = .record (ownerDict o)) ∧
    ((∀ o ∈ db.owners, o.id ≠ id) → ∃ s, get_owner id db = .sentinel s) := by
  refine ⟨?_, ?_, ?_, ?_, ?_, ?_⟩
  · intro ⟨p, hp, hid⟩
    have hsome : (db.pets.find? (fun q => q.id == id)).isSome := by
      rw [List.find?_isSome]
      exact ⟨p, hp, by simpa using hid⟩
    obtain ⟨q, hq⟩ := Option.isSome_iff_exists.mp hsome
    refine ⟨q, List.mem_of_find?_eq_some hq, ?_, ?_⟩
    · simpa using List.find?_some hq
    · unfold get_pet; rw [hq]
  · intro h
    refine ⟨"Data not found.", ?_⟩
    unfold get_pet
    rw [find?_eq_none_of_all_ne db.pets (fun p => p.id) id h]
  · intro ⟨k, hk, hid⟩
    have hsome : (db.kinds.find? (fun q => q.id == id)).isSome := by
      rw [List.find?_isSome]
      exact ⟨k, hk, by simpa using hid⟩
    obtain ⟨q, hq⟩ := Option.isSome_iff_exists.mp hsome
    refine ⟨q, List.mem_of_find?_eq_some hq, ?_, ?_⟩
    · simpa using List.find?_some hq
    · unfold get_kind; rw [hq]
  · intro h
    refine ⟨"Data not found.", ?_⟩
    unfold get_kind
    rw [find?_eq_none_of_all_ne db.kinds (fun k => k.id) id h]
  · intro ⟨o, ho, hid⟩
    have hsome : (db.owners.find? (fun q => q.id == id)).isSome := by
      rw [List.find?_isSome]
      exact ⟨o, ho, by simpa using hid⟩
    obtain ⟨q, hq⟩ := Option.isSome_iff_exists.mp hsome
    refine ⟨q, List.mem_of_find?_eq_some hq, ?_, ?_⟩
    · simpa using List.find?_some hq
    · unfold get_owner; rw [hq]
  · intro h
    refine ⟨"Data not found", ?_⟩
    unfold get_owner
    rw [find?_eq_none_of_all_ne db.owners (fun o => o.id) id h]

/-- C5 witness: a hit returns the stored dict, a miss the sentinel, on the
sample database. -/
theorem get_one_hit_and_miss_witness :
    (∃ p, p ∈ sampleDB.pets ∧ p.id = 1 ∧ get_pet 1 sampleDB = .record (petDict p)) ∧
    (∃ s, get_pet 5 sampleDB = .sentinel s) := by
  refine ⟨(get_one_hit_and_miss sampleDB 1).1 ?_, (get_one_hit_and_miss sampleDB 5).2.1 ?_⟩
  · exact ⟨⟨1, .vStr "dorothy", 9, 1, 1⟩, by decide, rfl⟩
  · intro x hx; fin_cases hx; decide

theorem create_pet_fst (data : Dict) (db : DB) :
    (create_pet data db).1 = setKey data "age" (.vInt (coerceAge data)) := by
  simp only [create_pet]
  repeat' split
  all_goals rfl

theorem update_pet_fst (id : Nat) (data : Dict) (db : DB) :
    (update_pet id data db).1 = setKey data "age" (.vInt (coerceAge data)) := by
  simp only [update_pet]
  repeat' split
  all_goals rfl

/-- C1: deleting a Kind (resp. Owner) row that some Pet row still
references raises the foreign-key error and leaves the database state
exactly as it was. -/
theorem delete_referenced_parent_fails (db : DB) (id : Nat) :
    ((∃ k ∈ db.kinds, k.id = id) → (∃ p ∈ db.pets, p.kind_id = id) →
        delete_kind id db = .error "FOREIGN KEY constraint failed" ∧
        applyOp (.opDeleteKind id) db = db) ∧
    ((∃ o ∈ db.owners, o.id = id) → (∃ p ∈ db.pets, p.owner_id = id) →
        delete_owner id db = .error "FOREIGN KEY constraint failed" ∧
        applyOp (.opDeleteOwner id) db = db) := by
  constructor
  · intro ⟨k, hk, hkid⟩ ⟨p, hp, hpid⟩
    have h1 : db.kinds.any (fun x => x.id == id) = true :=
      any_eq_true_of_mem _ _ _ k hk hkid
    have h2 : db.pets.any (fun x => x.kind_id == id) = true :=
      any_eq_true_of_mem _ _ _ p hp hpid
    have he : delete_kind id db = .error "FOREIGN KEY constraint failed" := by
      unfold delete_kind
      rw [h1, h2]
      rfl
    refine ⟨he, ?_⟩
    simp [applyOp, he]
  · intro ⟨o, ho, hoid⟩ ⟨p, hp, hpid⟩
    have h1 : db.owners.any (fun x => x.id == id) = true :=
      any_eq_true_of_mem _ _ _ o ho hoid
    have h2 : db.pets.any (fun x => x.owner_id == id) = true :=
      any_eq_true_of_mem _ _ _ p hp hpid
    have he : delete_owner id db = .error "FOREIGN KEY constraint failed" := by
      unfold delete_owner
      rw [h1, h2]
      rfl
    refine ⟨he, ?_⟩
    simp [applyOp, he]

/-- C1 witness: on the sample database, deleting kind 1 and owner 1 (both
referenced by the pet) fails and changes nothing. -/
theorem delete_referenced_parent_fails_witness :
    delete_kind 1 sampleDB = .error "FOREIGN KEY constraint failed" ∧
    applyOp (.opDeleteKind 1) sampleDB = sampleDB := by
  exact (delete_referenced_parent_fails sampleDB 1).1
    ⟨⟨1, .vStr "dog", .vStr "dogfood", .vStr "bark"⟩, by decide, rfl⟩
    ⟨⟨1, .vStr "dorothy", 9, 1, 1⟩, by decide, rfl⟩

/-- C6: no delete route lets a data-access error escape: the pet delete
route always redirects (its data-access call raises nothing), and the kind
and owner delete routes turn any data-access error into the rendered error
page carrying the error text. -/
theorem delete_handlers_catch_errors (db : DB) (id : Nat) :
    (∀ e db2, get_delete id db ≠ .raised e db2) ∧
    (∀ e, delete_kind id db = .error e →
        get_kind_delete id db = .response (.errorPage e) db) ∧
    (∀ e db2, get_kind_delete id db ≠ .raised e db2) ∧
    (∀ e, delete_owner id db = .error e →
        get_owner_delete id db = .response (.errorPage e) db) ∧
    (∀ e db2, get_owner_delete id db ≠ .raised e db2) := by
  refine ⟨?_, ?_, ?_, ?_, ?_⟩
  · intro e db2
    simp [get_delete]
  · intro e h
    unfold get_kind_delete
    rw [h]
  · intro e db2
    unfold get_kind_delete
    cases hc : delete_kind id db <;> simp
  · intro e h
    unfold get_owner_delete
    rw [h]
  · intro e db2
    unfold get_owner_delete
    cases hc : delete_owner id db <;> simp

/-- C6 witness: deleting referenced kind 1 on the sample database renders
the error page with the foreign-key error text. -/
theorem delete_handlers_catch_errors_witness :
    get_kind_delete 1 sampleDB =
      .response (.errorPage "FOREIGN KEY constraint failed") sampleDB := by
  exact (delete_handlers_catch_errors sampleDB 1).2.1
    "FOREIGN KEY constraint failed" (by rfl)

/-- C8: when no row has the requested id, the three update operations and
the three delete operations raise no error and return the state unchanged,
provided the form dict carries the keys the UPDATE statement reads. -/
theorem missing_id_silent_noop (db : DB) (id : Nat) (data : Dict)
    (hname : (getVal data "name").isSome = true)
    (hkid : (getVal data "kind_id").isSome = true)
    (hoid : (getVal data "owner_id").isSome = true)
    (hfood : (getVal data "food").isSome = true)
    (hsound : (getVal data "sound").isSome = true)
    (haddr : (getVal data "address").isSome = true) :
    ((∀ p ∈ db.pets, p.id ≠ id) → (update_pet id data db).2 = .ok db) ∧
    ((∀ k ∈ db.kinds, k.id ≠ id) → update_kind id data db = .ok db) ∧
    ((∀ o ∈ db.owners, o.id ≠ id) → update_owner id data db = .ok db) ∧
    ((∀ p ∈ db.pets, p.id ≠ id) → delete_pet id db = db) ∧
    ((∀ k ∈ db.kinds, k.id ≠ id) → delete_kind id db = .ok db) ∧
    ((∀ o ∈ db.owners, o.id ≠ id) → delete_owner id db = .ok db) := by
  obtain ⟨nm, hnm⟩ := Option.isSome_iff_exists.mp hname
  obtain ⟨kv, hkv⟩ := Option.isSome_iff_exists.mp hkid
  obtain ⟨ov, hov⟩ := Option.isSome_iff_exists.mp hoid
  obtain ⟨fv, hfv⟩ := Option.isSome_iff_exists.mp hfood
  obtain ⟨sv, hsv⟩ := Option.isSome_iff_exists.mp hsound
  obtain ⟨av, hav⟩ := Option.isSome_iff_exists.mp haddr
  refine ⟨?_, ?_, ?_, ?_, ?_, ?_⟩
  · intro h
    have hany : db.pets.any (fun p => p.id == id) = false :=
      any_eq_false_of_all_ne _ _ _ h
    simp only [update_pet]
    rw [getVal_setKey_other data "age" "name" _ (by decide),
        getVal_setKey_other data "age" "kind_id" _ (by decide),
        getVal_setKey_other data "age" "owner_id" _ (by decide),
        hnm, hkv, hov, hany]
    rfl
  · intro h
    have hmap : db.kinds.map
        (fun k => if k.id == id then ⟨k.id, nm, fv, sv⟩ else k) = db.kinds := by
      have := List.map_congr_left (l := db.kinds)
        (f := fun k => if k.id == id then (⟨k.id, nm, fv, sv⟩ : KindRow) else k)
        (g := fun k => k)
        (fun k hk => by
          have hb : (k.id == id) = false := by simpa using h k hk
          simp [hb])
      simpa using this
    unfold update_kind
    rw [hnm, hfv, hsv]
    exact congrArg Except.ok (by rw [hmap])
  · intro h
    have hmap : db.owners.map
        (fun o => if o.id == id then ⟨o.id, nm, av⟩ else o) = db.owners := by
      have := List.map_congr_left (l := db.owners)
        (f := fun o => if o.id == id then (⟨o.id, nm, av⟩ : OwnerRow) else o)
        (g := fun o => o)
        (fun o ho => by
          have hb : (o.id == id) = false := by simpa using h o ho
          simp [hb])
      simpa using this
    unfold update_owner
    rw [hnm, hav]
    exact congrArg Except.ok (by rw [hmap])
  · intro h
    have hfil : db.pets.filter (fun p => p.id != id) = db.pets :=
      List.filter_eq_self.mpr (fun p hp => by simpa using h p hp)
    unfold delete_pet
    rw [hfil]
  · intro h
    have hany : db.kinds.any (fun k => k.id == id) = false :=
      any_eq_false_of_all_ne _ _ _ h
    have hfil : db.kinds.filter (fun k => k.id != id) = db.kinds :=
      List.filter_eq_self.mpr (fun k hk => by simpa using h k hk)
    unfold delete_kind
    rw [hany, hfil]
    rfl
  · intro h
    have hany : db.owners.any (fun o => o.id == id) = false :=
      any_eq_false_of_all_ne _ _ _ h
    have hfil : db.owners.filter (fun o => o.id != id) = db.owners :=
      List.filter_eq_self.mpr (fun o ho => by simpa using h o ho)
    unfold delete_owner
    rw [hany, hfil]
    rfl

/-- C8 witness: id 99 matches nothing in the sample database, and every
update and delete operation returns the state unchanged. -/
theorem missing_id_silent_noop_witness :
    (update_pet 99 sampleAllData sampleDB).2 = .ok sampleDB ∧
    delete_kind 99 sampleDB = .ok sampleDB := by
  have h := missing_id_silent_noop sampleDB 99 sampleAllData
    (by decide) (by decide) (by decide) (by decide) (by decide) (by decide)
  refine ⟨h.1 ?_, h.2.2.2.2.1 ?_⟩ <;>
    (intro x hx; fin_cases hx; decide)

/-- C10: `create_pet` and `update_pet` mutate the caller's form dict:
afterwards its "age" entry holds the coerced integer (the parsed value, or
0 when parsing fails) and every other key is unchanged. -/
theorem data_dict_age_mutation (data : Dict) (db : DB) (id : Nat) :
    (getVal (create_pet data db).1 "age" = some (.vInt (coerceAge data)) ∧
     ∀ k2, k2 ≠ "age" → getVal (create_pet data db).1 k2 = getVal data k2) ∧
    (getVal (update_pet id data db).1 "age" = some (.vInt (coerceAge data)) ∧
     ∀ k2, k2 ≠ "age" → getVal (update_pet id data db).1 k2 = getVal data k2) ∧
    (∀ v, getVal data "age" = some v →
        ((toInt v = none → coerceAge data = 0) ∧
         (∀ n, toInt v = some n → coerceAge data = n))) := by
  refine ⟨⟨?_, ?_⟩, ⟨?_, ?_⟩, ?_⟩
  · rw [create_pet_fst]
    exact getVal_setKey_same _ _ _
  · intro k2 hk2
    rw [create_pet_fst]
    exact getVal_setKey_other _ _ _ _ hk2
  · rw [update_pet_fst]
    exact getVal_setKey_same _ _ _
  · intro k2 hk2
    rw [update_pet_fst]
    exact getVal_setKey_other _ _ _ _ hk2
  · intro v hv
    constructor
    · intro hn
      unfold coerceAge
      rw [hv]
      show (toInt v).getD 0 = 0
      rw [hn]
      rfl
    · intro n hn
      unfold coerceAge
      rw [hv]
      show (toInt v).getD 0 = n
      rw [hn]
      rfl

/-- C10 witness: with an unparseable age string the caller's dict ends up
with age 0 while the name key is untouched. -/
theorem data_dict_age_mutation_witness :
    getVal (create_pet sampleBadAgeData emptyDB).1 "age" =
      some (.vInt (coerceAge sampleBadAgeData)) ∧
    getVal (create_pet sampleBadAgeData emptyDB).1 "name" =
      getVal sampleBadAgeData "name" ∧
    coerceAge sampleBadAgeData = 0 := by
  refine ⟨(data_dict_age_mutation sampleBadAgeData emptyDB 0).1.1,
          (data_dict_age_mutation sampleBadAgeData emptyDB 0).1.2 "name" (by decide),
          ((data_dict_age_mutation sampleBadAgeData emptyDB 0).2.2
            (.vStr "abc") (by decide)).1 (by decide)⟩

theorem create_pet_ok_shape (data : Dict) (db db2 : DB)
    (h : (create_pet data db).2 = .ok db2) :
    db2.kinds = db.kinds ∧ db2.owners = db.owners ∧
    ∃ nm kid oid,
      (db.kinds.any (fun k => k.id == kid)) = true ∧
      (db.owners.any (fun o => o.id == oid)) = true ∧
      db2.pets = db.pets ++ [⟨db.nextPet, nm, coerceAge data, kid, oid⟩] := by
  simp only [create_pet] at h
  split at h
  case h_2 => simp at h
  case h_1 nm kv ov hnm hkv hov =>
    split at h
    case h_2 => simp at h
    case h_1 kid oid hkid hoid =>
      split at h
      case isFalse => simp at h
      case isTrue hcond =>
        rw [Bool.and_eq_true] at hcond
        replace h : Except.ok
            ({ db with
                pets := db.pets ++ [⟨db.nextPet, nm, coerceAge data, kid, oid⟩],
                nextPet := db.nextPet + 1 } : DB) = Except.ok db2 := h
        injection h with h
        subst h
        exact ⟨rfl, rfl, nm, kid, oid, hcond.1, hcond.2, rfl⟩

theorem update_pet_ok_shape (id : Nat) (data : Dict) (db db2 : DB)
    (h : (update_pet id data db).2 = .ok db2) :
    db2.kinds = db.kinds ∧ db2.owners = db.owners ∧
    (((db.pets.any (fun p => p.id == id)) = false ∧ db2 = db) ∨
     ∃ nm kid oid,
       (db.kinds.any (fun k => k.id == kid)) = true ∧
       (db.owners.any (fun o => o.id == oid)) = true ∧
       db2.pets = db.pets.map (fun p =>
         if p.id == id then ⟨p.id, nm, coerceAge data, kid, oid⟩ else p)) := by
  simp only [update_pet] at h
  split at h
  case h_2 => simp at h
  case h_1 nm kv ov hnm hkv hov =>
    split at h
    case isFalse hany =>
      replace h : Except.ok db = Except.ok db2 := h
      injection h with h
      subst h
      exact ⟨rfl, rfl, Or.inl ⟨Bool.of_not_eq_true hany, rfl⟩⟩
    case isTrue hany =>
      split at h
      case h_2 => simp at h
      case h_1 kid oid hkid hoid =>
        split at h
        case isFalse => simp at h
        case isTrue hcond =>
          rw [Bool.and_eq_true] at hcond
          replace h : Except.ok
              ({ db with
                  pets := db.pets.map (fun p =>
                    if p.id == id then ⟨p.id, nm, coerceAge data, kid, oid⟩ else p) } : DB) =
              Except.ok db2 := h
          injection h with h
          subst h
          exact ⟨rfl, rfl, Or.inr ⟨nm, kid, oid, hcond.1, hcond.2, rfl⟩⟩

theorem create_kind_ok_shape (data : Dict) (db db2 : DB)
    (h : create_kind data db = .ok db2) :
    db2.pets = db.pets ∧ db2.owners = db.owners ∧
    ∃ row, db2.kinds = db.kinds ++ [row] := by
  simp only [create_kind] at h
  split at h
  case h_2 => simp at h
  case h_1 nm f s hnm hf hs =>
    injection h with h
    subst h
    exact ⟨rfl, rfl, ⟨db.nextKind, nm, f, s⟩, rfl⟩

theorem create_owner_ok_shape (data : Dict) (db db2 : DB)
    (h : create_owner data db = .ok db2) :
    db2.pets = db.pets ∧ db2.kinds = db.kinds ∧
    ∃ row, db2.owners = db.owners ++ [row] := by
  simp only [create_owner] at h
  split at h
  case h_2 => simp at h
  case h_1 nm a hnm ha =>
    injection h with h
    subst h
    exact ⟨rfl, rfl, ⟨db.nextOwner, nm, a⟩, rfl⟩

theorem update_kind_ok_shape (id : Nat) (data : Dict) (db db2 : DB)
    (h : update_kind id data db = .ok db2) :
    db2.pets = db.pets ∧ db2.owners = db.owners ∧
    ∀ n, (∃ k ∈ db.kinds, k.id = n) → ∃ k ∈ db2.kinds, k.id = n := by
  simp only [update_kind] at h
  split at h
  case h_2 => simp at h
  case h_1 nm f s hnm hf hs =>
    injection h with h
    subst h
    refine ⟨rfl, rfl, ?_⟩
    intro n ⟨k, hk, hid⟩
    by_cases hb : (k.id == id) = true
    · refine ⟨⟨k.id, nm, f, s⟩, ?_, hid⟩
      have := List.mem_map_of_mem
        (fun k => if k.id == id then (⟨k.id, nm, f, s⟩ : KindRow) else k) hk
      simpa [hb] using this
    · refine ⟨k, ?_, hid⟩
      have := List.mem_map_of_mem
        (fun k => if k.id == id then (⟨k.id, nm, f, s⟩ : KindRow) else k) hk
      simpa [hb] using this

theorem update_owner_ok_shape (id : Nat) (data : Dict) (db db2 : DB)
    (h : update_owner id data db = .ok db2) :
    db2.pets = db.pets ∧ db2.kinds = db.kinds ∧
    ∀ n, (∃ o ∈ db.owners, o.id = n) → ∃ o ∈ db2.owners, o.id = n := by
  simp only [update_owner] at h
  split at h
  case h_2 => simp at h
  case h_1 nm a hnm ha =>
    injection h with h
    subst h
    refine ⟨rfl, rfl, ?_⟩
    intro n ⟨o, ho, hid⟩
    by_cases hb : (o.id == id) = true
    · refine ⟨⟨o.id, nm, a⟩, ?_, hid⟩
      have := List.mem_map_of_mem
        (fun o => if o.id == id then (⟨o.id, nm, a⟩ : OwnerRow) else o) ho
      simpa [hb] using this
    · refine ⟨o, ?_, hid⟩
      have := List.mem_map_of_mem
        (fun o => if o.id == id then (⟨o.id, nm, a⟩ : OwnerRow) else o) ho
      simpa [hb] using this

theorem delete_kind_ok_shape (id : Nat) (db db2 : DB)
    (h : delete_kind id db = .ok db2) :
    db2.pets = db.pets ∧ db2.owners = db.owners ∧
    db2.kinds = db.kinds.filter (fun k => k.id != id) ∧
    ((db.kinds.any (fun k => k.id == id)) = false ∨
     (db.pets.any (fun p => p.kind_id == id)) = false) := by
  simp only [delete_kind] at h
  split at h
  case isTrue => simp at h
  case isFalse hcond =>
    injection h with h
    subst h
    refine ⟨rfl, rfl, rfl, ?_⟩
    by_cases h1 : (db.kinds.any (fun k => k.id == id)) = true
    · right
      by_cases h2 : (db.pets.any (fun p => p.kind_id == id)) = true
      · exact absurd (show _ = true by simp [h1, h2]) hcond
      · exact Bool.of_not_eq_true h2
    · exact Or.inl (Bool.of_not_eq_true h1)

theorem delete_owner_ok_shape (id : Nat) (db db2 : DB)
    (h : delete_owner id db = .ok db2) :
    db2.pets = db.pets ∧ db2.kinds = db.kinds ∧
    db2.owners = db.owners.filter (fun o => o.id != id) ∧
    ((db.owners.any (fun o => o.id == id)) = false ∨
     (db.pets.any (fun p => p.owner_id == id)) = false) := by
  simp only [delete_owner] at h
  split at h
  case isTrue => simp at h
  case isFalse hcond =>
    injection h with h
    subst h
    refine ⟨rfl, rfl, rfl, ?_⟩
    by_cases h1 : (db.owners.any (fun o => o.id == id)) = true
    · right
      by_cases h2 : (db.pets.any (fun p => p.owner_id == id)) = true
      · exact absurd (show _ = true by simp [h1, h2]) hcond
      · exact Bool.of_not_eq_true h2
    · exact Or.inl (Bool.of_not_eq_true h1)

/-- C3: on a successful insert, `create_pet` stores the coerced age in the
new row; on a successful update of an existing pet id, the rewritten row
also carries the coerced age; and the coerced age is the parsed integer
when `int(data["age"])` succeeds and 0 when it fails. -/
theorem age_stored_coerced (data : Dict) (db db2 : DB) (id : Nat) :
    ((create_pet data db).2 = .ok db2 →
        ∃ r, db2.pets = db.pets ++ [r] ∧ r.age = coerceAge data) ∧
    ((update_pet id data db).2 = .ok db2 → (∃ p ∈ db.pets, p.id = id) →
        ∃ r ∈ db2.pets, r.id = id ∧ r.age = coerceAge data) ∧
    (∀ v, getVal data "age" = some v → toInt v = none → coerceAge data = 0) ∧
    (∀ v n, getVal data "age" = some v → toInt v = some n → coerceAge data = n) := by
  refine ⟨?_, ?_, ?_, ?_⟩
  · intro h
    obtain ⟨-, -, nm, kid, oid, -, -, hpets⟩ := create_pet_ok_shape data db db2 h
    exact ⟨⟨db.nextPet, nm, coerceAge data, kid, oid⟩, hpets, rfl⟩
  · intro h ⟨p, hp, hpid⟩
    obtain ⟨-, -, hcase⟩ := update_pet_ok_shape id data db db2 h
    rcases hcase with ⟨hany, -⟩ | ⟨nm, kid, oid, -, -, hpets⟩
    · exact absurd (any_eq_true_of_mem _ _ _ p hp hpid) (by rw [hany]; simp)
    · have hb : (p.id == id) = true := by simpa using hpid
      have hmem := List.mem_map_of_mem
        (fun p => if p.id == id then
          (⟨p.id, nm, coerceAge data, kid, oid⟩ : PetRow) else p) hp
      simp only [hb, if_true] at hmem
      refine ⟨⟨p.id, nm, coerceAge data, kid, oid⟩, ?_, hpid, rfl⟩
      rw [hpets]
      exact hmem
  · intro v hv hn
    unfold coerceAge
    rw [hv]
    show (toInt v).getD 0 = 0
    rw [hn]
    rfl
  · intro v n hv hn
    unfold coerceAge
    rw [hv]
    show (toInt v).getD 0 = n
    rw [hn]
    rfl

/-- C3 witness: creating a pet with age "abc" on the sample database
stores a row with age 0. -/
theorem age_stored_coerced_witness :
    ∃ r, ((create_pet sampleBadAgeData sampleDB).2 = .ok
            { sampleDB with pets := sampleDB.pets ++ [r], nextPet := 3 }) ∧
         r.age = 0 := by
  refine ⟨⟨2, .vStr "rex", 0, 1, 1⟩, by rfl, ?_⟩
  have h := (age_stored_coerced sampleBadAgeData sampleDB
      { sampleDB with
          pets := sampleDB.pets ++ [⟨2, .vStr "rex", 0, 1, 1⟩], nextPet := 3 }
      0).2.2.1 (.vStr "abc") (by decide) (by decide)
  rw [← h]

/-- C7 counterexample: a pet create submission whose kind and owner ids
match no row (the database is empty) makes `post_create` raise the
foreign-key error instead of returning a redirect. -/
theorem submit_redirect_counterexample :
    HandlerResult.isRedirect (post_create samplePetData emptyDB) = false ∧
    post_create samplePetData emptyDB =
      .raised "FOREIGN KEY constraint failed" emptyDB := by
  exact ⟨rfl, rfl⟩

/-- C7 (amended): whenever the data-access call raises no error, each
create-submit and update-submit handler returns a redirect to its entity
type's list page. -/
theorem submit_handlers_redirect_on_ok (data : Dict) (db db2 : DB) (id : Nat) :
    ((create_pet data db).2 = .ok db2 →
        post_create data db = .response (.redirect "get_list") db2) ∧
    ((update_pet id data db).2 = .ok db2 →
        post_update id data db = .response (.redirect "get_list") db2) ∧
    (create_kind data db = .ok db2 →
        post_kind_create data db = .response (.redirect "get_kind_list") db2) ∧
    (update_kind id data db = .ok db2 →
        post_kind_update id data db = .response (.redirect "get_kind_list") db2) ∧
    (create_owner data db = .ok db2 →
        post_owner_create data db = .response (.redirect "get_owner_list") db2) ∧
    (update_owner id data db = .ok db2 →
        post_owner_update id data db = .response (.redirect "get_owner_list") db2) := by
  refine ⟨?_, ?_, ?_, ?_, ?_, ?_⟩
  · intro h
    unfold post_create
    rcases hc : create_pet data db with ⟨d, r⟩
    rw [hc] at h
    change r = Except.ok db2 at h
    rw [h]
  · intro h
    unfold post_update
    rcases hc : update_pet id data db with ⟨d, r⟩
    rw [hc] at h
    change r = Except.ok db2 at h
    rw [h]
  · intro h
    unfold post_kind_create
    rw [h]
  · intro h
    unfold post_kind_update
    rw [h]
  · intro h
    unfold post_owner_create
    rw [h]
  · intro h
    unfold post_owner_update
    rw [h]

/-- C7 witness: a successful pet create on the sample database redirects
to the pet list. -/
theorem submit_handlers_redirect_on_ok_witness :
    post_create samplePetData sampleDB =
      .response (.redirect "get_list")
        { sampleDB with
            pets := sampleDB.pets ++ [⟨2, .vStr "suzy", 9, 1, 1⟩],
            nextPet := 3 } := by
  exact (submit_handlers_redirect_on_ok samplePetData sampleDB
    { sampleDB with
        pets := sampleDB.pets ++ [⟨2, .vStr "suzy", 9, 1, 1⟩],
        nextPet := 3 } 0).1 (by rfl)

theorem applyOp_preserves_refintegrity (op : Op) (db : DB)
    (h : RefIntegrity db) : RefIntegrity (applyOp op db) := by
  cases op with
  | opCreatePet data =>
      cases hc : (create_pet data db).2 with
      | error e => simpa [applyOp, hc] using h
      | ok db2 =>
          obtain ⟨hk, ho, nm, kid, oid, hka, hoa, hpets⟩ :=
            create_pet_ok_shape data db db2 hc
          have happ : applyOp (.opCreatePet data) db = db2 := by
            simp [applyOp, hc]
          rw [happ]
          intro p hp
          rw [hpets] at hp
          rcases List.mem_append.mp hp with hp | hp
          · obtain ⟨⟨k, hkm, hkid⟩, ⟨o, hom, hoid⟩⟩ := h p hp
            exact ⟨⟨k, by rw [hk]; exact hkm, hkid⟩,
                   ⟨o, by rw [ho]; exact hom, hoid⟩⟩
          · rcases List.mem_singleton.mp hp with rfl
            obtain ⟨k, hkm, hkb⟩ := List.any_eq_true.mp hka
            obtain ⟨o, hom, hob⟩ := List.any_eq_true.mp hoa
            exact ⟨⟨k, by rw [hk]; exact hkm, by simpa using hkb⟩,
                   ⟨o, by rw [ho]; exact hom, by simpa using hob⟩⟩
  | opCreateKind data =>
      cases hc : create_kind data db with
      | error e => simpa [applyOp, hc] using h
      | ok db2 =>
          obtain ⟨hp2, ho2, row, hkinds⟩ := create_kind_ok_shape data db db2 hc
          have happ : applyOp (.opCreateKind data) db = db2 := by
            simp [applyOp, hc]
          rw [happ]
          intro p hp
          rw [hp2] at hp
          obtain ⟨⟨k, hkm, hkid⟩, ⟨o, hom, hoid⟩⟩ := h p hp
          refine ⟨⟨k, ?_, hkid⟩, ⟨o, by rw [ho2]; exact hom, hoid⟩⟩
          rw [hkinds]
          exact List.mem_append_left _ hkm
  | opCreateOwner data =>
      cases hc : create_owner data db with
      | error e => simpa [applyOp, hc] using h
      | ok db2 =>
          obtain ⟨hp2, hk2, row, howners⟩ := create_owner_ok_shape data db db2 hc
          have happ : applyOp (.opCreateOwner data) db = db2 := by
            simp [applyOp, hc]
          rw [happ]
          intro p hp
          rw [hp2] at hp
          obtain ⟨⟨k, hkm, hkid⟩, ⟨o, hom, hoid⟩⟩ := h p hp
          refine ⟨⟨k, by rw [hk2]; exact hkm, hkid⟩, ⟨o, ?_, hoid⟩⟩
          rw [howners]
          exact List.mem_append_left _ hom
  | opUpdatePet id data =>
      cases hc : (update_pet id data db).2 with
      | error e => simpa [applyOp, hc] using h
      | ok db2 =>
          obtain ⟨hk, ho, hcase⟩ := update_pet_ok_shape id data db db2 hc
          have happ : applyOp (.opUpdatePet id data) db = db2 := by
            simp [applyOp, hc]
          rw [happ]
          rcases hcase with ⟨hany, heq⟩ | ⟨nm, kid, oid, hka, hoa, hpets⟩
          · rw [heq]
            exact h
          · intro p2 hp2
            rw [hpets] at hp2
            obtain ⟨p, hp, hfp⟩ := List.mem_map.mp hp2
            by_cases hb : (p.id == id) = true
            · rw [if_pos hb] at hfp
              subst hfp
              obtain ⟨k, hkm, hkb⟩ := List.any_eq_true.mp hka
              obtain ⟨o, hom, hob⟩ := List.any_eq_true.mp hoa
              exact ⟨⟨k, by rw [hk]; exact hkm, by simpa using hkb⟩,
                     ⟨o, by rw [ho]; exact hom, by simpa using hob⟩⟩
            · rw [if_neg hb] at hfp
              subst hfp
              obtain ⟨⟨k, hkm, hkid⟩, ⟨o, hom, hoid⟩⟩ := h p hp
              exact ⟨⟨k, by rw [hk]; exact hkm, hkid⟩,
                     ⟨o, by rw [ho]; exact hom, hoid⟩⟩
  | opUpdateKind id data =>
      cases hc : update_kind id data db with
      | error e => simpa [applyOp, hc] using h
      | ok db2 =>
          obtain ⟨hp2, ho2, hmono⟩ := update_kind_ok_shape id data db db2 hc
          have happ : applyOp (.opUpdateKind id data) db = db2 := by
            simp [applyOp, hc]
          rw [happ]
          intro p hp
          rw [hp2] at hp
          obtain ⟨⟨k, hkm, hkid⟩, ⟨o, hom, hoid⟩⟩ := h p hp
          exact ⟨hmono p.kind_id ⟨k, hkm, hkid⟩,
                 ⟨o, by rw [ho2]; exact hom, hoid⟩⟩
  | opUpdateOwner id data =>
      cases hc : update_owner id data db with
      | error e => simpa [applyOp, hc] using h
      | ok db2 =>
          obtain ⟨hp2, hk2, hmono⟩ := update_owner_ok_shape id data db db2 hc
          have happ : applyOp (.opUpdateOwner id data) db = db2 := by
            simp [applyOp, hc]
          rw [happ]
          intro p hp
          rw [hp2] at hp
          obtain ⟨⟨k, hkm, hkid⟩, ⟨o, hom, hoid⟩⟩ := h p hp
          exact ⟨⟨k, by rw [hk2]; exact hkm, hkid⟩,
                 hmono p.owner_id ⟨o, hom, hoid⟩⟩
  | opDeletePet id =>
      intro p hp
      have hp2 : p ∈ db.pets := (List.mem_filter.mp hp).1
      exact h p hp2
  | opDeleteKind id =>
      cases hc : delete_kind id db with
      | error e => simpa [applyOp, hc] using h
      | ok db2 =>
          obtain ⟨hp2, ho2, hkinds, hguard⟩ := delete_kind_ok_shape id db db2 hc
          have happ : applyOp (.opDeleteKind id) db = db2 := by
            simp [applyOp, hc]
          rw [happ]
          intro p hp
          rw [hp2] at hp
          obtain ⟨⟨k, hkm, hkid⟩, ⟨o, hom, hoid⟩⟩ := h p hp
          refine ⟨⟨k, ?_, hkid⟩, ⟨o, by rw [ho2]; exact hom, hoid⟩⟩
          rw [hkinds]
          refine List.mem_filter.mpr ⟨hkm, ?_⟩
          have hne : k.id ≠ id := by
            intro he
            rcases hguard with hg | hg
            · exact absurd (any_eq_true_of_mem _ _ _ k hkm he)
                (by rw [hg]; simp)
            · refine absurd (any_eq_true_of_mem _ _ _ p hp ?_)
                (by rw [hg]; simp)
              rw [← hkid]
              exact he
          simpa using hne
  | opDeleteOwner id =>
      cases hc : delete_owner id db with
      | error e => simpa [applyOp, hc] using h
      | ok db2 =>
          obtain ⟨hp2, hk2, howners, hguard⟩ := delete_owner_ok_shape id db db2 hc
          have happ : applyOp (.opDeleteOwner id) db = db2 := by
            simp [applyOp, hc]
          rw [happ]
          intro p hp
          rw [hp2] at hp
          obtain ⟨⟨k, hkm, hkid⟩, ⟨o, hom, hoid⟩⟩ := h p hp
          refine ⟨⟨k, by rw [hk2]; exact hkm, hkid⟩, ⟨o, ?_, hoid⟩⟩
          rw [howners]
          refine List.mem_filter.mpr ⟨hom, ?_⟩
          have hne : o.id ≠ id := by
            intro he
            rcases hguard with hg | hg
            · exact absurd (any_eq_true_of_mem _ _ _ o hom he)
                (by rw [hg]; simp)
            · refine absurd (any_eq_true_of_mem _ _ _ p hp ?_)
                (by rw [hg]; simp)
              rw [← hoid]
              exact he
          simpa using hne

theorem runOps_preserves_refintegrity (l : List Op) (s : DB)
    (hs : RefIntegrity s) : RefIntegrity (runOps l s) := by
  induction l generalizing s with
  | nil => exact hs
  | cons op tl ih => exact ih (applyOp op s) (applyOp_preserves_refintegrity op s hs)

/-- C2: referential integrity is an invariant of every database state
reachable from the empty database through the data-access operations:
every Pet row references an existing Kind row and an existing Owner row. -/
theorem referential_integrity_invariant (db : DB) (h : Reachable db) :
    RefIntegrity db := by
  obtain ⟨ops, hops⟩ := h
  rw [← hops]
  apply runOps_preserves_refintegrity
  intro p hp
  exact absurd hp (List.not_mem_nil p)

/-- C2 witness: the sample database is reachable (create a kind, an owner,
then a pet) and satisfies referential integrity. -/
theorem referential_integrity_invariant_witness : RefIntegrity sampleDB :=
  referential_integrity_invariant sampleDB
    ⟨[.opCreateKind [("name", .vStr "dog"), ("food", .vStr "dogfood"),
        ("sound", .vStr "bark")],
      .opCreateOwner [("name", .vStr "Greg"),
        ("address", .vStr "1365 Maple Ave.")],
      .opCreatePet [("name", .vStr "dorothy"), ("age", .vStr "9"),
        ("kind_id", .vStr "1"), ("owner_id", .vStr "1")]], by rfl⟩

theorem filter_id_length_one {α : Type} (f : α → Nat) (l : List α) (n : Nat)
    (hnd : l.Pairwise (fun a b => f a ≠ f b)) (hex : ∃ x ∈ l, f x = n) :
    (l.filter (fun x => f x == n)).length = 1 := by
  induction l with
  | nil =>
      obtain ⟨x, hx, -⟩ := hex
      exact absurd hx (List.not_mem_nil x)
  | cons a tl ih =>
      obtain ⟨hhead, htl⟩ := List.pairwise_cons.mp hnd
      by_cases hb : f a = n
      · have hfil : tl.filter (fun x => f x == n) = [] := by
          apply List.filter_eq_nil_iff.mpr
          intro x hx
          intro hfx
          have hfx2 : f x = n := by simpa using hfx
          exact hhead x hx (hb.trans hfx2.symm)
        have hab : (f a == n) = true := by simpa using hb
        simp [List.filter_cons, hab, hfil]
      · have hex2 : ∃ x ∈ tl, f x = n := by
          obtain ⟨x, hx, hfx⟩ := hex
          rcases List.mem_cons.mp hx with rfl | hx2
          · exact absurd hfx hb
          · exact ⟨x, hx2, hfx⟩
        have hab : (f a == n) = false := by simpa using hb
        simp only [List.filter_cons, hab, Bool.false_eq_true, if_neg,
          not_false_iff]
        exact ih htl hex2

theorem sum_map_ones {α : Type} (l : List α) (g : α → Nat)
    (h : ∀ x ∈ l, g x = 1) : (l.map g).sum = l.length := by
  induction l with
  | nil => rfl
  | cons a tl ih =>
      simp only [List.map_cons, List.sum_cons, List.length_cons]
      rw [h a (List.mem_cons_self a tl),
          ih (fun x hx => h x (List.mem_cons_of_mem a hx))]
      omega

/-- C4: on a well-formed state (unique primary keys, referential
integrity), `get_pets` returns exactly one row per Pet table row, and each
output row carries the pet's id, name and age, the referenced Kind's name
(as kind_name), food and sound, and the referenced Owner's name (as
owner). -/
theorem get_pets_denormalizes (db : DB) (hu : UniqueIds db)
    (hri : RefIntegrity db) :
    (get_pets db).length = db.pets.length ∧
    ∀ row ∈ get_pets db, ∃ p ∈ db.pets, ∃ k ∈ db.kinds, ∃ o ∈ db.owners,
      k.id = p.kind_id ∧ o.id = p.owner_id ∧
      getVal row "id" = some (.vInt p.id) ∧
      getVal row "name" = some p.name ∧
      getVal row "age" = some (.vInt p.age) ∧
      getVal row "kind_name" = some k.name ∧
      getVal row "food" = some k.food ∧
      getVal row "sound" = some k.sound ∧
      getVal row "owner" = some o.name := by
  obtain ⟨huk, huo, hup⟩ := hu
  constructor
  · unfold get_pets
    rw [List.length_flatMap]
    apply sum_map_ones
    intro p hp
    obtain ⟨⟨k, hkm, hkid⟩, ⟨o, hom, hoid⟩⟩ := hri p hp
    have hklen : (db.kinds.filter (fun k => k.id == p.kind_id)).length = 1 :=
      filter_id_length_one (fun k => k.id) db.kinds p.kind_id huk ⟨k, hkm, hkid⟩
    have holen : (db.owners.filter (fun o => o.id == p.owner_id)).length = 1 :=
      filter_id_length_one (fun o => o.id) db.owners p.owner_id huo
        ⟨o, hom, hoid⟩
    show ((db.kinds.filter (fun k => k.id == p.kind_id)).flatMap (fun k =>
      (db.owners.filter (fun o => o.id == p.owner_id)).map (fun o =>
        petJoinRow p k o))).length = 1
    rw [List.length_flatMap]
    rw [sum_map_ones _ _ (fun k2 hk2 => by
      show ((db.owners.filter (fun o => o.id == p.owner_id)).map (fun o =>
        petJoinRow p k2 o)).length = 1
      rw [List.length_map]
      exact holen)]
    exact hklen
  · intro row hrow
    unfold get_pets at hrow
    obtain ⟨p, hp, hrow2⟩ := List.mem_flatMap.mp hrow
    obtain ⟨k, hkf, hrow3⟩ := List.mem_flatMap.mp hrow2
    obtain ⟨o, hof, hrow4⟩ := List.mem_map.mp hrow3
    obtain ⟨hkm, hkb⟩ := List.mem_filter.mp hkf
    obtain ⟨hom, hob⟩ := List.mem_filter.mp hof
    subst hrow4
    exact ⟨p, hp, k, hkm, o, hom, by simpa using hkb, by simpa using hob,
           rfl, rfl, rfl, rfl, rfl, rfl, rfl⟩

/-- C4 witness: on the sample database the join output has exactly one row
per pet and carries the denormalized fields. -/
theorem get_pets_denormalizes_witness :
    (get_pets sampleDB).length = sampleDB.pets.length ∧
    ∀ row ∈ get_pets sampleDB, ∃ p ∈ sampleDB.pets, ∃ k ∈ sampleDB.kinds,
      ∃ o ∈ sampleDB.owners,
      k.id = p.kind_id ∧ o.id = p.owner_id ∧
      getVal row "id" = some (.vInt p.id) ∧
      getVal row "name" = some p.name ∧
      getVal row "age" = some (.vInt p.age) ∧
      getVal row "kind_name" = some k.name ∧
      getVal row "food" = some k.food ∧
      getVal row "sound" = some k.sound ∧
      getVal row "owner" = some o.name := by
  apply get_pets_denormalizes sampleDB
  · exact ⟨by simp [sampleDB], by simp [sampleDB], by simp [sampleDB]⟩
  · intro p hp
    fin_cases hp
    exact ⟨⟨⟨1, .vStr "dog", .vStr "dogfood", .vStr "bark"⟩, by decide, rfl⟩,
           ⟨⟨1, .vStr "Greg", .vStr "1365 Maple Ave."⟩, by decide, rfl⟩⟩

end Pets
